import Mathlib

/-!
Shallow embedding of `src/swami/__init__.py` (the SWAMI/MCM subprocess
adapter) and verification of its natural-language specification.

Modelling conventions:
* Python floats are modelled as `Rat`; the concrete literals appearing in
  the spec ("1.0", "2.0", "400", ...) are all exactly representable, so no
  rounding questions arise for the claims below.  The special literals
  `inf`/`nan` and numeric underscores accepted by Python's `float()` are
  outside every claim and are not modelled.
* Python exceptions are modelled by the error type `PyExn`; functions that
  can raise return `Except PyExn _`.  `ValueError` (raised by `float()` on a
  bad token, by tuple unpacking, and by the length-mismatch check in `run`)
  and `IndexError` (raised by `values[0]` / `arr[0]` on an empty list) are
  the only exceptions the translated code can raise.
* The subprocess boundary is not modelled: `MCM.run` is embedded up to the
  point where the request text (`inputData`) is handed to `subprocess.Popen`;
  the embedding `MCM.run_model` returns that text, or the error raised
  before any process is spawned.
-/

/-- Python exceptions reachable in the translated code. -/
inductive PyExn where
  | valueError
  | indexError
deriving DecidableEq, Repr

/-- A parsed output field: Python stores either a bare float (`N = 1`)
or a list of floats in each `MCMOutput` attribute. -/
inductive PyField where
  | scalar (x : Rat)
  | arr (xs : List Rat)
deriving DecidableEq, Repr

/-- The `MCMOutput` dataclass: 25 fields, each a float or list of floats,
in the order declared in the source. -/
structure MCMOutput where
  altitude : PyField
  day_of_year : PyField
  local_time : PyField
  latitude : PyField
  longitude : PyField
  f107 : PyField
  f107m : PyField
  kp1 : PyField
  kp2 : PyField
  dens : PyField
  temp : PyField
  wmm : PyField
  d_H : PyField
  d_He : PyField
  d_O : PyField
  d_N2 : PyField
  d_O2 : PyField
  d_N : PyField
  tinf : PyField
  dens_unc : PyField
  dens_std : PyField
  xwind : PyField
  ywind : PyField
  xwind_std : PyField
  ywind_std : PyField
deriving DecidableEq, Repr

/-- Decidable equality for `Except`, so that concrete runs of the adapter
can be checked by `decide`. -/
instance {ε α : Type} [DecidableEq ε] [DecidableEq α] :
    DecidableEq (Except ε α) := fun a b =>
  match a, b with
  | .error e, .error f =>
    decidable_of_iff (e = f) ⟨fun h => by rw [h], fun h => by injection h⟩
  | .error _, .ok _ => isFalse (fun h => Except.noConfusion h)
  | .ok _, .error _ => isFalse (fun h => Except.noConfusion h)
  | .ok x, .ok y =>
    decidable_of_iff (x = y) ⟨fun h => by rw [h], fun h => by injection h⟩

/-! ### Python primitives used by the adapter -/

/-- Optional leading sign of a numeric literal: returns (isNegative, rest). -/
def pySign : List Char → Bool × List Char
  | '+' :: r => (false, r)
  | '-' :: r => (true, r)
  | r => (false, r)

/-- Split a character list at the first character satisfying `p`:
returns the part before it and, when found, the part after it. -/
def breakAt (p : Char → Bool) : List Char → List Char × Option (List Char)
  | [] => ([], none)
  | c :: r =>
    if p c then ([], some r)
    else
      let (a, b) := breakAt p r
      (c :: a, b)

/-- Numeric value of a digit string (most significant first). -/
def digitsToNat (l : List Char) : Nat :=
  l.foldl (fun a c => 10 * a + (c.toNat - 48)) 0

/-- Python's `float(token)` on a whitespace-free token, as an exact
rational: optional sign, decimal digits with at most one point, optional
exponent part.  Returns `none` exactly when `float()` raises `ValueError`
(the `inf`/`nan` literals and digit underscores are not modelled). -/
def pyFloat? (s : String) : Option Rat :=
  let (neg, cs) := pySign s.toList
  let (mantCs, expCs) := breakAt (fun c => c == 'e' || c == 'E') cs
  let (ipCs, fpOpt) := breakAt (fun c => c == '.') mantCs
  let fpCs := fpOpt.getD []
  if ipCs.all Char.isDigit ∧ fpCs.all Char.isDigit ∧ ¬(ipCs = [] ∧ fpCs = []) then
    let expVal : Option Int :=
      match expCs with
      | none => some 0
      | some ecs =>
        let (eneg, eds) := pySign ecs
        if eds ≠ [] ∧ eds.all Char.isDigit then
          some (if eneg then -(digitsToNat eds : Int) else (digitsToNat eds : Int))
        else none
    match expVal with
    | none => none
    | some e =>
      let d : Nat := digitsToNat (ipCs ++ fpCs)
      let mag : Rat :=
        if 0 ≤ e then mkRat ((d : Int) * 10 ^ e.toNat) (10 ^ fpCs.length)
        else mkRat d (10 ^ fpCs.length * 10 ^ (-e).toNat)
      some (if neg then -mag else mag)
  else none

/-- Python's `str.strip()`: remove leading and trailing whitespace. -/
def pyStrip (s : String) : String :=
  String.mk (((s.toList.dropWhile Char.isWhitespace).reverse.dropWhile
    Char.isWhitespace).reverse)

/-- Accumulating worker for `str.split()`: `acc` holds the reversed
characters of the token being read. -/
def tokensAux : List Char → List Char → List String
  | [], acc => if acc = [] then [] else [String.mk acc.reverse]
  | c :: r, acc =>
    if c.isWhitespace then
      if acc = [] then tokensAux r []
      else String.mk acc.reverse :: tokensAux r []
    else tokensAux r (c :: acc)

/-- Python's `str.split()` with no argument: the maximal runs of
non-whitespace characters, in order. -/
def pyTokens (out : String) : List String :=
  tokensAux out.toList []

/-- Python's `int(f)` on a float: truncation toward zero (`Int.tdiv` of the
numerator by the positive denominator truncates toward zero). -/
def pyTrunc (q : Rat) : Int :=
  Int.tdiv q.num q.den

/-- Resolution of a Python slice bound `i` against a list of length `n`:
negative indices count from the end and clamp at 0, positive ones clamp
at `n`.  `values[:i]` is `take (pyIdx i n)` and `values[i:]` is
`drop (pyIdx i n)`. -/
def pyIdx (i : Int) (n : Nat) : Nat :=
  if i < 0 then (i + n).toNat else min i.toNat n

/-- `list(map(float, tokens))`: eager, raising `ValueError` at the first
token `float()` rejects. -/
def floatAll : List String → Except PyExn (List Rat)
  | [] => .ok []
  | t :: ts =>
    match pyFloat? t with
    | none => .error .valueError
    | some q =>
      match floatAll ts with
      | .error e => .error e
      | .ok qs => .ok (q :: qs)

namespace MCM

/-- `MCM.fortran_bool`: `"T" if b else "F"`. -/
def fortran_bool (b : Bool) : String :=
  if b then "T" else "F"

/-- A value passed as one of the nine numeric arguments of `MCM.run`:
a Python or NumPy scalar, a NumPy array, or any other iterable
(list, tuple, ...) whose elements are listed in order. -/
inductive PyInput (α : Type) where
  | scalar (x : α)
  | ndarray (xs : List α)
  | iterable (xs : List α)
deriving DecidableEq, Repr

/-- `MCM.to_list`: scalars become one-element lists, NumPy arrays are
converted by `.tolist()`, anything else by `list(x)`. -/
def to_list {α : Type} : PyInput α → List α
  | .scalar x => [x]
  | .ndarray xs => xs
  | .iterable xs => xs

/-- The loop body of `_read_output`, iterated 25 times:
`arr = values[:length]; values = values[length:]`, and when `length == 1`
the chunk is unwrapped to its first element (`arr[0]`, which raises
`IndexError` on an empty chunk). -/
def chunksK : Nat → List Rat → Int → Except PyExn (List PyField)
  | 0, _, _ => .ok []
  | k + 1, values, length =>
    let a := values.take (pyIdx length values.length)
    let rest := values.drop (pyIdx length values.length)
    if length = 1 then
      match a with
      | [] => .error .indexError
      | x :: _ =>
        match chunksK k rest length with
        | .error e => .error e
        | .ok t => .ok (.scalar x :: t)
    else
      match chunksK k rest length with
      | .error e => .error e
      | .ok t => .ok (.arr a :: t)

/-- The tail of `_read_output` after `float()`-mapping: read `N` from the
first value (`IndexError` when there is none), consume 25 chunks, and unpack
the resulting 25 arrays into the `MCMOutput` fields (Python tuple unpacking
raises `ValueError` on a length mismatch, which is unreachable here). -/
def parseValues : List Rat → Except PyExn MCMOutput
  | [] => .error .indexError
  | v0 :: values =>
    match chunksK 25 values (pyTrunc v0) with
    | .error e => .error e
    | .ok [a1, a2, a3, a4, a5, a6, a7, a8, a9, a10, a11, a12, a13,
          a14, a15, a16, a17, a18, a19, a20, a21, a22, a23, a24, a25] =>
      .ok ⟨a1, a2, a3, a4, a5, a6, a7, a8, a9, a10, a11, a12, a13,
           a14, a15, a16, a17, a18, a19, a20, a21, a22, a23, a24, a25⟩
    | .ok _ => .error .valueError

/-- `MCM._read_output`: strip the output, split it into tokens, map
`float` over them, then parse. -/
def read_output (out : String) : Except PyExn MCMOutput :=
  match floatAll (pyTokens (pyStrip out)) with
  | .error e => .error e
  | .ok values => parseValues values

/-- `MCM.__init__`: `data_dtm = str(pwd / "data") + "/"` where `pwd` is the
directory of the module file. -/
def dataDtm (pwd : String) : String :=
  pwd ++ "/data" ++ "/"

/-- `MCM.__init__`: `data_um = os.path.join(path_to_data, "um") + "/"`. -/
def dataUm (pwd : String) : String :=
  pwd ++ "/data" ++ "/um" ++ "/"

/-- `" ".join(map(str, xs))`, parametric in Python's `str` rendering of the
element type. -/
def joinNums {α : Type} (pyStr : α → String) (xs : List α) : String :=
  String.intercalate " " (xs.map pyStr)

/-- The `inputData` f-string built in `MCM.run`: the count, the nine
space-joined data lines, the two Fortran logicals, and the two data-path
lines, each line terminated by a newline. -/
def buildInput {α : Type} (pyStr : α → String) (size : Nat)
    (altitude day_of_year local_time latitude longitude
     f107 f107m kp1 kp2 : List α)
    (get_winds get_uncertainty : Bool) (data_dtm data_um : String) : String :=
  toString size ++ "\n"
    ++ joinNums pyStr altitude ++ "\n"
    ++ joinNums pyStr day_of_year ++ "\n"
    ++ joinNums pyStr local_time ++ "\n"
    ++ joinNums pyStr latitude ++ "\n"
    ++ joinNums pyStr longitude ++ "\n"
    ++ joinNums pyStr f107 ++ "\n"
    ++ joinNums pyStr f107m ++ "\n"
    ++ joinNums pyStr kp1 ++ "\n"
    ++ joinNums pyStr kp2 ++ "\n"
    ++ fortran_bool get_winds ++ "\n"
    ++ fortran_bool get_uncertainty ++ "\n"
    ++ data_dtm ++ "\n"
    ++ data_um ++ "\n"

/-- `MCM.run` up to the subprocess boundary: normalize the nine inputs with
`to_list`, check that the set of their lengths is a singleton (raising
`ValueError` — the spec's `InvalidInput` — otherwise), and build the request
text that is then written to the child process's stdin.  The subprocess is
spawned only after this function returns `.ok`, so an `.error` result is
raised before any process is spawned. -/
def run_model {α : Type} [DecidableEq α] (pyStr : α → String)
    (altitude day_of_year local_time latitude longitude
     f107 f107m kp1 kp2 : PyInput α)
    (get_uncertainty get_winds : Bool) (data_dtm data_um : String) :
    Except PyExn String :=
  let altitude := to_list altitude
  let day_of_year := to_list day_of_year
  let local_time := to_list local_time
  let latitude := to_list latitude
  let longitude := to_list longitude
  let f107 := to_list f107
  let f107m := to_list f107m
  let kp1 := to_list kp1
  let kp2 := to_list kp2
  let lengths : Finset Nat :=
    {altitude.length, day_of_year.length, local_time.length, latitude.length,
     longitude.length, f107.length, f107m.length, kp1.length, kp2.length}
  if lengths.card ≠ 1 then .error .valueError
  else
    .ok (buildInput pyStr altitude.length altitude day_of_year local_time
      latitude longitude f107 f107m kp1 kp2 get_winds get_uncertainty
      data_dtm data_um)

end MCM

/-! ### Specification-side definitions

These are not translations of the source; they restate the spec's
description of the behaviour, to be compared with the translated code. -/

/-- Spec side: the `i`-th chunk of the flat value stream for point count
`N` — the `N` values starting at offset `i*N`. -/
def specChunk (vals : List Rat) (N i : Nat) : List Rat :=
  (vals.drop (i * N)).take N

/-- Spec side: the field holding the `i`-th chunk — a bare scalar when
`N = 1`, the chunk itself otherwise. -/
def fieldAt (vals : List Rat) (N i : Nat) : PyField :=
  if N = 1 then .scalar ((specChunk vals N i).headD 0) else .arr (specChunk vals N i)

/-- Spec side: the result record whose 25 fields are the 25 consecutive
chunks of the value stream, in the documented field order. -/
def outputOfChunks (vals : List Rat) (N : Nat) : MCMOutput :=
  ⟨fieldAt vals N 0, fieldAt vals N 1, fieldAt vals N 2, fieldAt vals N 3,
   fieldAt vals N 4, fieldAt vals N 5, fieldAt vals N 6, fieldAt vals N 7,
   fieldAt vals N 8, fieldAt vals N 9, fieldAt vals N 10, fieldAt vals N 11,
   fieldAt vals N 12, fieldAt vals N 13, fieldAt vals N 14, fieldAt vals N 15,
   fieldAt vals N 16, fieldAt vals N 17, fieldAt vals N 18, fieldAt vals N 19,
   fieldAt vals N 20, fieldAt vals N 21, fieldAt vals N 22, fieldAt vals N 23,
   fieldAt vals N 24⟩

/-- The 25 fields of a result record, in the documented order. -/
def fieldsList (o : MCMOutput) : List PyField :=
  [o.altitude, o.day_of_year, o.local_time, o.latitude, o.longitude,
   o.f107, o.f107m, o.kp1, o.kp2, o.dens, o.temp, o.wmm, o.d_H, o.d_He,
   o.d_O, o.d_N2, o.d_O2, o.d_N, o.tinf, o.dens_unc, o.dens_std,
   o.xwind, o.ywind, o.xwind_std, o.ywind_std]

/-- Cardinality of a field: 1 for a bare scalar, the length for a sequence. -/
def fieldCard : PyField → Nat
  | .scalar _ => 1
  | .arr xs => xs.length

/-- Spec side: render a list of lines as a newline-terminated block. -/
def renderLines : List String → String
  | [] => ""
  | l :: ls => l ++ "\n" ++ renderLines ls

/-- Spec side: the first ten lines of the request block (the count and the
nine data lines), which do not depend on the boolean flags or the paths. -/
def numericLines {α : Type} (pyStr : α → String) (size : Nat)
    (altitude day_of_year local_time latitude longitude
     f107 f107m kp1 kp2 : List α) : List String :=
  [toString size, MCM.joinNums pyStr altitude, MCM.joinNums pyStr day_of_year,
   MCM.joinNums pyStr local_time, MCM.joinNums pyStr latitude,
   MCM.joinNums pyStr longitude, MCM.joinNums pyStr f107,
   MCM.joinNums pyStr f107m, MCM.joinNums pyStr kp1, MCM.joinNums pyStr kp2]

/-- Spec side (normalizer contract, 4.1): a bare scalar becomes a
one-element sequence; an array or any other sequence becomes the ordered
sequence of its elements. -/
def normalizeSpec {α : Type} : MCM.PyInput α → List α
  | .scalar x => [x]
  | .ndarray xs => xs
  | .iterable xs => xs

/-- The value list remaining after `i` iterations of the slicing loop of
`_read_output` with slice bound `L` (which may be any integer). -/
def restAfter (vals : List Rat) (L : Int) : Nat → List Rat
  | 0 => vals
  | i + 1 =>
    let v := restAfter vals L i
    v.drop (pyIdx L v.length)

/-- The chunk cut off at iteration `i` of the slicing loop. -/
def chunkAt (vals : List Rat) (L : Int) (i : Nat) : List Rat :=
  let v := restAfter vals L i
  v.take (pyIdx L v.length)

/-- The record produced when the point count is not 1: every field is the
(list) chunk cut off at the corresponding iteration, possibly truncated or
empty when the stream is short. -/
def outputOfChunksInt (vals : List Rat) (L : Int) : MCMOutput :=
  ⟨.arr (chunkAt vals L 0), .arr (chunkAt vals L 1), .arr (chunkAt vals L 2),
   .arr (chunkAt vals L 3), .arr (chunkAt vals L 4), .arr (chunkAt vals L 5),
   .arr (chunkAt vals L 6), .arr (chunkAt vals L 7), .arr (chunkAt vals L 8),
   .arr (chunkAt vals L 9), .arr (chunkAt vals L 10), .arr (chunkAt vals L 11),
   .arr (chunkAt vals L 12), .arr (chunkAt vals L 13), .arr (chunkAt vals L 14),
   .arr (chunkAt vals L 15), .arr (chunkAt vals L 16), .arr (chunkAt vals L 17),
   .arr (chunkAt vals L 18), .arr (chunkAt vals L 19), .arr (chunkAt vals L 20),
   .arr (chunkAt vals L 21), .arr (chunkAt vals L 22), .arr (chunkAt vals L 23),
   .arr (chunkAt vals L 24)⟩

/-! ### Helper lemmas on the parser -/

lemma pyIdx_natCast (N n : Nat) : pyIdx (N : Int) n = min N n := by
  simp [pyIdx]

lemma specChunk_drop (vals : List Rat) (N i : Nat) :
    specChunk (vals.drop N) N i = specChunk vals N (i + 1) := by
  unfold specChunk
  rw [List.drop_drop]
  congr 2
  ring

lemma fieldAt_drop (vals : List Rat) (N i : Nat) :
    fieldAt (vals.drop N) N i = fieldAt vals N (i + 1) := by
  unfold fieldAt
  rw [specChunk_drop]

lemma chunksK_ok (k : Nat) : ∀ (vals : List Rat) (N : Nat), 1 ≤ N →
    k * N ≤ vals.length →
    MCM.chunksK k vals (N : Int) = .ok ((List.range k).map (fieldAt vals N)) := by
  induction k with
  | zero => intro vals N _ _; simp [MCM.chunksK]
  | succ k ih =>
    intro vals N hN hlen
    have hNlen : N ≤ vals.length := by nlinarith
    have hrest : k * N ≤ (vals.drop N).length := by
      rw [List.length_drop]
      rw [Nat.succ_mul] at hlen
      omega
    simp only [MCM.chunksK, pyIdx_natCast, Nat.min_eq_left hNlen]
    by_cases hN1 : N = 1
    · subst hN1
      obtain ⟨x, t, rfl⟩ : ∃ x t, vals = x :: t := by
        cases vals with
        | nil => simp at hNlen
        | cons x t => exact ⟨x, t, rfl⟩
      simp only [Nat.cast_one, if_true]
      simp only [List.take_succ_cons, List.take_zero, List.drop_succ_cons, List.drop_zero]
      have ih1 := ih t 1 hN (by simpa using hrest)
      rw [Nat.cast_one] at ih1
      rw [ih1]
      rw [List.range_succ_eq_map, List.map_cons, List.map_map]
      have hhead : fieldAt (x :: t) 1 0 = .scalar x := by
        simp [fieldAt, specChunk]
      have htail : (fieldAt (x :: t) 1) ∘ Nat.succ = fieldAt t 1 := by
        funext i
        have := fieldAt_drop (x :: t) 1 i
        simpa using this.symm
      rw [hhead, htail]
    · rw [if_neg (by exact_mod_cast hN1)]
      rw [ih (vals.drop N) N hN hrest]
      rw [List.range_succ_eq_map, List.map_cons, List.map_map]
      have hhead : fieldAt vals N 0 = .arr (vals.take N) := by
        simp [fieldAt, specChunk, hN1]
      have htail : (fieldAt vals N) ∘ Nat.succ = fieldAt (vals.drop N) N := by
        funext i
        have := fieldAt_drop vals N i
        simpa using this.symm
      rw [hhead, htail]

lemma parseValues_ok (v0 : Rat) (vals : List Rat) (N : Nat)
    (h0 : pyTrunc v0 = (N : Int)) (hN : 1 ≤ N) (hlen : 25 * N ≤ vals.length) :
    MCM.parseValues (v0 :: vals) = .ok (outputOfChunks vals N) := by
  simp only [MCM.parseValues, h0]
  rw [chunksK_ok 25 vals N hN hlen]
  rfl

lemma restAfter_drop (vals : List Rat) (L : Int) (i : Nat) :
    restAfter (vals.drop (pyIdx L vals.length)) L i = restAfter vals L (i + 1) := by
  induction i with
  | zero => rfl
  | succ i ih => simp only [restAfter, ih]

lemma chunkAt_drop (vals : List Rat) (L : Int) (i : Nat) :
    chunkAt (vals.drop (pyIdx L vals.length)) L i = chunkAt vals L (i + 1) := by
  unfold chunkAt
  rw [restAfter_drop]

lemma chunksK_ne_one (L : Int) (hL : L ≠ 1) (k : Nat) : ∀ vals : List Rat,
    MCM.chunksK k vals L =
      .ok ((List.range k).map (fun i => PyField.arr (chunkAt vals L i))) := by
  induction k with
  | zero => intro vals; simp [MCM.chunksK]
  | succ k ih =>
    intro vals
    simp only [MCM.chunksK, if_neg hL]
    rw [ih (vals.drop (pyIdx L vals.length))]
    rw [List.range_succ_eq_map, List.map_cons, List.map_map]
    have hhead : PyField.arr (vals.take (pyIdx L vals.length)) =
        PyField.arr (chunkAt vals L 0) := rfl
    have htail : ((fun i => PyField.arr (chunkAt vals L i)) ∘ Nat.succ) =
        fun i => PyField.arr (chunkAt (vals.drop (pyIdx L vals.length)) L i) := by
      funext i
      simp only [Function.comp_apply, chunkAt_drop]
  -- goal is now closed by rewriting both adjustments
    rw [hhead, htail]

lemma parseValues_ne_one (v0 : Rat) (vals : List Rat) (h : pyTrunc v0 ≠ 1) :
    MCM.parseValues (v0 :: vals) = .ok (outputOfChunksInt vals (pyTrunc v0)) := by
  simp only [MCM.parseValues]
  rw [chunksK_ne_one (pyTrunc v0) h 25 vals]
  rfl

lemma chunksK_short_one (k : Nat) : ∀ vals : List Rat, vals.length < k →
    MCM.chunksK k vals 1 = .error .indexError := by
  induction k with
  | zero => intro vals h; omega
  | succ k ih =>
    intro vals h
    cases vals with
    | nil => simp [MCM.chunksK, pyIdx]
    | cons x t =>
      simp only [MCM.chunksK]
      have hidx : pyIdx 1 (x :: t).length = 1 := by
        simp [pyIdx]
      rw [hidx]
      simp only [List.take_succ_cons, List.take_zero, List.drop_succ_cons,
        List.drop_zero, if_pos rfl]
      rw [ih t (by simpa using Nat.lt_of_succ_lt_succ h)]
      rfl

lemma floatAll_error (ts : List String) (t : String) (ht : t ∈ ts)
    (hbad : pyFloat? t = none) : floatAll ts = .error .valueError := by
  induction ts with
  | nil => simp at ht
  | cons s ts ih =>
    rcases List.mem_cons.mp ht with rfl | hmem
    · simp [floatAll, hbad]
    · unfold floatAll
      cases hs : pyFloat? s with
      | none => rfl
      | some q => rw [ih hmem]

lemma specChunk_append (core extra : List Rat) (N i : Nat)
    (h : (i + 1) * N ≤ core.length) :
    specChunk (core ++ extra) N i = specChunk core N i := by
  unfold specChunk
  rw [Nat.succ_mul] at h
  rw [List.drop_append_of_le_length (by omega)]
  rw [List.take_append_of_le_length (by simp [List.length_drop]; omega)]

lemma fieldAt_append (core extra : List Rat) (N i : Nat)
    (h : (i + 1) * N ≤ core.length) :
    fieldAt (core ++ extra) N i = fieldAt core N i := by
  unfold fieldAt
  rw [specChunk_append core extra N i h]

lemma outputOfChunks_append (core extra : List Rat) (N : Nat)
    (h : 25 * N ≤ core.length) :
    outputOfChunks (core ++ extra) N = outputOfChunks core N := by
  unfold outputOfChunks
  congr 1 <;>
    exact fieldAt_append core extra N _
      (le_trans (Nat.mul_le_mul_right N (by norm_num)) h)

lemma specChunk_length (vals : List Rat) (N i : Nat)
    (h : (i + 1) * N ≤ vals.length) : (specChunk vals N i).length = N := by
  unfold specChunk
  rw [Nat.succ_mul] at h
  simp [List.length_take, List.length_drop]
  omega

lemma fieldAt_card (vals : List Rat) (N i : Nat)
    (h : (i + 1) * N ≤ vals.length) : fieldCard (fieldAt vals N i) = N := by
  unfold fieldAt
  split_ifs with h1
  · simp [fieldCard, h1]
  · simp [fieldCard, specChunk_length vals N i h]

lemma fieldsList_outputOfChunks (vals : List Rat) (N : Nat) :
    fieldsList (outputOfChunks vals N) = (List.range 25).map (fieldAt vals N) := by
  rfl

/-! ### Helper lemmas on the serializer and the length check -/

lemma buildInput_renderLines {α : Type} (pyStr : α → String) (size : Nat)
    (a1 a2 a3 a4 a5 a6 a7 a8 a9 : List α) (w u : Bool) (d1 d2 : String) :
    MCM.buildInput pyStr size a1 a2 a3 a4 a5 a6 a7 a8 a9 w u d1 d2 =
      renderLines (numericLines pyStr size a1 a2 a3 a4 a5 a6 a7 a8 a9 ++
        [MCM.fortran_bool w, MCM.fortran_bool u, d1, d2]) := by
  simp [MCM.buildInput, renderLines, numericLines, String.append_assoc,
    String.append_empty]

lemma card9_eq_one_iff (a1 a2 a3 a4 a5 a6 a7 a8 a9 : Nat) :
    ({a1, a2, a3, a4, a5, a6, a7, a8, a9} : Finset Nat).card = 1 ↔
      (a2 = a1 ∧ a3 = a1 ∧ a4 = a1 ∧ a5 = a1 ∧ a6 = a1 ∧ a7 = a1 ∧
       a8 = a1 ∧ a9 = a1) := by
  constructor
  · intro h
    obtain ⟨b, hb⟩ := Finset.card_eq_one.mp h
    have mem : ∀ x ∈ ({a1, a2, a3, a4, a5, a6, a7, a8, a9} : Finset Nat),
        x = b := by
      intro x hx
      rw [hb] at hx
      exact Finset.mem_singleton.mp hx
    have h1 := mem a1 (by simp)
    have h2 := mem a2 (by simp)
    have h3 := mem a3 (by simp)
    have h4 := mem a4 (by simp)
    have h5 := mem a5 (by simp)
    have h6 := mem a6 (by simp)
    have h7 := mem a7 (by simp)
    have h8 := mem a8 (by simp)
    have h9 := mem a9 (by simp)
    omega
  · rintro ⟨rfl, rfl, rfl, rfl, rfl, rfl, rfl, rfl⟩
    simp

/-! ### Claims -/

/-- Claim C1: for an output whose first token truncates to `N ≥ 1` followed
by at least `25*N` numeric tokens, the parser consumes the values in 25
consecutive chunks of `N` and assigns them to the 25 fields in the
documented order, unwrapping to bare scalars when `N = 1`; in particular
the two synthetic streams of the spec parse to the all-`1.0` scalar record
and the all-`[1.0, 2.0]` sequence record. -/
theorem c1_chunk_assignment (v0 : Rat) (vals : List Rat) (N : Nat)
    (h0 : pyTrunc v0 = (N : Int)) (hN : 1 ≤ N) (hlen : 25 * N ≤ vals.length) :
    MCM.parseValues (v0 :: vals) = .ok (outputOfChunks vals N) ∧
    MCM.read_output ("1 " ++ String.join (List.replicate 25 "1.0 ")) =
      .ok ⟨.scalar 1, .scalar 1, .scalar 1, .scalar 1, .scalar 1, .scalar 1,
        .scalar 1, .scalar 1, .scalar 1, .scalar 1, .scalar 1, .scalar 1,
        .scalar 1, .scalar 1, .scalar 1, .scalar 1, .scalar 1, .scalar 1,
        .scalar 1, .scalar 1, .scalar 1, .scalar 1, .scalar 1, .scalar 1,
        .scalar 1⟩ ∧
    MCM.read_output ("2 " ++ String.join (List.replicate 25 "1.0 2.0 ")) =
      .ok ⟨.arr [1, 2], .arr [1, 2], .arr [1, 2], .arr [1, 2], .arr [1, 2],
        .arr [1, 2], .arr [1, 2], .arr [1, 2], .arr [1, 2], .arr [1, 2],
        .arr [1, 2], .arr [1, 2], .arr [1, 2], .arr [1, 2], .arr [1, 2],
        .arr [1, 2], .arr [1, 2], .arr [1, 2], .arr [1, 2], .arr [1, 2],
        .arr [1, 2], .arr [1, 2], .arr [1, 2], .arr [1, 2], .arr [1, 2]⟩ :=
  ⟨parseValues_ok v0 vals N h0 hN hlen, by decide, by decide⟩

/-- Witness for C1 at `N = 1` with the stream `1, 1.0 * 25`. -/
theorem c1_chunk_assignment_witness :
    pyTrunc 1 = ((1 : Nat) : Int) ∧ 1 ≤ 1 ∧
    25 * 1 ≤ (List.replicate 25 (1 : Rat)).length ∧
    MCM.parseValues (1 :: List.replicate 25 1) =
      .ok (outputOfChunks (List.replicate 25 1) 1) :=
  ⟨by decide, le_refl 1, by decide,
    (c1_chunk_assignment 1 (List.replicate 25 1) 1 (by decide) (by decide)
      (by decide)).1⟩

/-- Claim C2: the serialized request block consists, in fixed order, of the
count line, the nine space-joined data lines, the two one-character logical
lines, and the two data-path lines, each path ending in a path separator;
the spec's literal single-point example serializes to the exact documented
text. -/
theorem c2_request_layout {α : Type} (pyStr : α → String) (size : Nat)
    (a1 a2 a3 a4 a5 a6 a7 a8 a9 : List α) (w u : Bool) (pwd : String) :
    MCM.buildInput pyStr size a1 a2 a3 a4 a5 a6 a7 a8 a9 w u
        (MCM.dataDtm pwd) (MCM.dataUm pwd) =
      renderLines (numericLines pyStr size a1 a2 a3 a4 a5 a6 a7 a8 a9 ++
        [MCM.fortran_bool w, MCM.fortran_bool u, MCM.dataDtm pwd,
         MCM.dataUm pwd]) ∧
    (∃ p, MCM.dataDtm pwd = p ++ "/") ∧
    (∃ q, MCM.dataUm pwd = q ++ "/") ∧
    MCM.buildInput (fun n : Int => toString n) 1 [400] [45] [12] [0] [180]
        [120] [110] [2] [2] false false (MCM.dataDtm "/opt/swami")
        (MCM.dataUm "/opt/swami") =
      "1\n400\n45\n12\n0\n180\n120\n110\n2\n2\nF\nF\n/opt/swami/data/\n/opt/swami/data/um/\n" :=
  ⟨buildInput_renderLines pyStr size a1 a2 a3 a4 a5 a6 a7 a8 a9 w u
      (MCM.dataDtm pwd) (MCM.dataUm pwd),
    ⟨pwd ++ "/data", rfl⟩, ⟨pwd ++ "/data" ++ "/um", rfl⟩, by decide⟩

/-- Claim C3: after normalization, the run fails with the `InvalidInput`
`ValueError` exactly when the nine input lengths are not all equal, and the
error precedes the subprocess (the request text exists only in the `.ok`
case). -/
theorem c3_length_validation {α : Type} [DecidableEq α] (pyStr : α → String)
    (x1 x2 x3 x4 x5 x6 x7 x8 x9 : MCM.PyInput α) (gu gw : Bool)
    (d1 d2 : String) :
    MCM.run_model pyStr x1 x2 x3 x4 x5 x6 x7 x8 x9 gu gw d1 d2 =
        .error .valueError ↔
      ¬ ((MCM.to_list x2).length = (MCM.to_list x1).length ∧
         (MCM.to_list x3).length = (MCM.to_list x1).length ∧
         (MCM.to_list x4).length = (MCM.to_list x1).length ∧
         (MCM.to_list x5).length = (MCM.to_list x1).length ∧
         (MCM.to_list x6).length = (MCM.to_list x1).length ∧
         (MCM.to_list x7).length = (MCM.to_list x1).length ∧
         (MCM.to_list x8).length = (MCM.to_list x1).length ∧
         (MCM.to_list x9).length = (MCM.to_list x1).length) := by
  have hcard := card9_eq_one_iff (MCM.to_list x1).length (MCM.to_list x2).length
    (MCM.to_list x3).length (MCM.to_list x4).length (MCM.to_list x5).length
    (MCM.to_list x6).length (MCM.to_list x7).length (MCM.to_list x8).length
    (MCM.to_list x9).length
  simp only [MCM.run_model]
  split_ifs with h
  · exact iff_of_true rfl (fun hall => h (hcard.mpr hall))
  · exact iff_of_false (by simp) (not_not_intro (hcard.mp (not_not.mp h)))

/-- Witness for C3: a mismatched pair of lengths is rejected. -/
theorem c3_length_validation_witness :
    MCM.run_model (fun n : Int => toString n) (.scalar 1) (.scalar 1)
      (.scalar 1) (.scalar 1) (.scalar 1) (.scalar 1) (.scalar 1) (.scalar 1)
      (.iterable [1, 2]) false false "d/" "u/" = .error .valueError :=
  (c3_length_validation (fun n : Int => toString n) (.scalar 1) (.scalar 1)
      (.scalar 1) (.scalar 1) (.scalar 1) (.scalar 1) (.scalar 1) (.scalar 1)
      (.iterable [1, 2]) false false "d/" "u/").mpr (by decide)

/-- Counterexample to claim C4: the stream `"2 1.0"` has 2 tokens, fewer
than `1 + 25*2 = 51`, yet the parser raises nothing and returns a record
with truncated fields. -/
theorem c4_short_stream_counterexample :
    MCM.read_output "2 1.0" =
      .ok ⟨.arr [1], .arr [], .arr [], .arr [], .arr [], .arr [], .arr [],
        .arr [], .arr [], .arr [], .arr [], .arr [], .arr [], .arr [],
        .arr [], .arr [], .arr [], .arr [], .arr [], .arr [], .arr [],
        .arr [], .arr [], .arr [], .arr []⟩ := by decide

/-- Claim C4 as amended: on a short stream the parser raises (an
`IndexError`) only when `N = 1`; for `N ≥ 2` it raises nothing and returns
the record of (possibly truncated or empty) chunks. -/
theorem c4_short_stream_behaviour :
    (∀ (v0 : Rat) (vals : List Rat), pyTrunc v0 = 1 → vals.length < 25 →
      MCM.parseValues (v0 :: vals) = .error .indexError) ∧
    (∀ (v0 : Rat) (vals : List Rat) (N : Nat), pyTrunc v0 = (N : Int) →
      2 ≤ N →
      MCM.parseValues (v0 :: vals) = .ok (outputOfChunksInt vals (N : Int))) := by
  constructor
  · intro v0 vals h0 hshort
    simp only [MCM.parseValues, h0]
    rw [chunksK_short_one 25 vals hshort]
  · intro v0 vals N h0 hN
    have hne : pyTrunc v0 ≠ 1 := by
      rw [h0]
      exact_mod_cast (by omega : N ≠ 1)
    rw [parseValues_ne_one v0 vals hne, h0]

/-- Witness for the amended C4: both branches at concrete inputs. -/
theorem c4_short_stream_behaviour_witness :
    pyTrunc 1 = 1 ∧ ([] : List Rat).length < 25 ∧
    MCM.parseValues [1] = .error .indexError ∧
    pyTrunc 2 = ((2 : Nat) : Int) ∧ 2 ≤ 2 ∧
    MCM.parseValues (2 :: [1]) = .ok (outputOfChunksInt [1] 2) :=
  ⟨by decide, by decide, c4_short_stream_behaviour.1 1 [] (by decide) (by decide),
    by decide, le_refl 2,
    c4_short_stream_behaviour.2 2 [1] 2 (by decide) (by decide)⟩

/-- Counterexample to claim C5: on the stream `"2 1.0 2.0 3.0"` the parser
returns a record whose fields have cardinalities 2, 1 and 0 — a partial
result with mixed cardinalities. -/
theorem c5_partial_result_counterexample :
    MCM.read_output "2 1.0 2.0 3.0" =
      .ok ⟨.arr [1, 2], .arr [3], .arr [], .arr [], .arr [], .arr [], .arr [],
        .arr [], .arr [], .arr [], .arr [], .arr [], .arr [], .arr [],
        .arr [], .arr [], .arr [], .arr [], .arr [], .arr [], .arr [],
        .arr [], .arr [], .arr [], .arr []⟩ ∧
    fieldCard (PyField.arr [(1 : Rat), 2]) ≠ fieldCard (PyField.arr ([] : List Rat)) :=
  ⟨by decide, by decide⟩

/-- Claim C5 as amended: the parser never returns a partially *assigned*
record (each run either raises or yields all 25 fields), and whenever the
stream supplies at least `1 + 25*N` tokens (`N ≥ 1`) all 25 fields share
the same cardinality `N` — scalars exactly when `N = 1`; on shorter streams
with `N ≥ 2` the returned fields may have differing lengths. -/
theorem c5_uniform_cardinality (v0 : Rat) (vals : List Rat) (N : Nat)
    (h0 : pyTrunc v0 = (N : Int)) (hN : 1 ≤ N) (hlen : 25 * N ≤ vals.length) :
    ∃ o, MCM.parseValues (v0 :: vals) = .ok o ∧
      (∀ f ∈ fieldsList o, fieldCard f = N) ∧
      (N = 1 → ∀ f ∈ fieldsList o, ∃ x, f = .scalar x) ∧
      (2 ≤ N → ∀ f ∈ fieldsList o, ∃ xs, f = .arr xs ∧ xs.length = N) := by
  refine ⟨outputOfChunks vals N, parseValues_ok v0 vals N h0 hN hlen, ?_, ?_, ?_⟩
  · intro f hf
    rw [fieldsList_outputOfChunks] at hf
    obtain ⟨i, hi, rfl⟩ := List.mem_map.mp hf
    have hi25 : i < 25 := List.mem_range.mp hi
    exact fieldAt_card vals N i
      (le_trans (Nat.mul_le_mul_right N (by omega)) hlen)
  · intro h1 f hf
    rw [fieldsList_outputOfChunks] at hf
    obtain ⟨i, hi, rfl⟩ := List.mem_map.mp hf
    exact ⟨(specChunk vals N i).headD 0, by rw [fieldAt, if_pos h1]⟩
  · intro h2 f hf
    rw [fieldsList_outputOfChunks] at hf
    obtain ⟨i, hi, rfl⟩ := List.mem_map.mp hf
    have hi25 : i < 25 := List.mem_range.mp hi
    exact ⟨specChunk vals N i, by rw [fieldAt, if_neg (by omega)],
      specChunk_length vals N i
        (le_trans (Nat.mul_le_mul_right N (by omega)) hlen)⟩

/-- Witness for the amended C5 at `N = 1`. -/
theorem c5_uniform_cardinality_witness :
    ∃ o, MCM.parseValues (1 :: List.replicate 25 1) = .ok o ∧
      (∀ f ∈ fieldsList o, fieldCard f = 1) ∧
      (1 = 1 → ∀ f ∈ fieldsList o, ∃ x, f = .scalar x) ∧
      (2 ≤ 1 → ∀ f ∈ fieldsList o, ∃ xs, f = .arr xs ∧ xs.length = 1) :=
  c5_uniform_cardinality 1 (List.replicate 25 1) 1 (by decide) (by decide)
    (by decide)

/-- Claim C6: any token that `float()` rejects makes the parser raise the
`ValueError` (the spec's `MalformedOutput`). -/
theorem c6_nonnumeric_token (out t : String)
    (ht : t ∈ pyTokens (pyStrip out)) (hbad : pyFloat? t = none) :
    MCM.read_output out = .error .valueError := by
  unfold MCM.read_output
  rw [floatAll_error (pyTokens (pyStrip out)) t ht hbad]

/-- Witness for C6 on the stream `"1 oops"`. -/
theorem c6_nonnumeric_token_witness :
    "oops" ∈ pyTokens (pyStrip "1 oops") ∧ pyFloat? "oops" = none ∧
    MCM.read_output "1 oops" = .error .valueError :=
  ⟨by decide, by decide, c6_nonnumeric_token "1 oops" "oops" (by decide) (by decide)⟩

/-- Claim C7: the normalizer `to_list` agrees with the spec contract — a
bare scalar becomes a one-element list, an array or any other iterable
becomes the ordered list of its elements, with no error for any recognized
shape. -/
theorem c7_normalizer {α : Type} (v : MCM.PyInput α) :
    MCM.to_list v = normalizeSpec v ∧
    (∀ x : α, MCM.to_list (MCM.PyInput.scalar x) = [x]) ∧
    (∀ xs : List α, MCM.to_list (MCM.PyInput.ndarray xs) = xs) ∧
    (∀ xs : List α, MCM.to_list (MCM.PyInput.iterable xs) = xs) := by
  refine ⟨?_, fun _ => rfl, fun _ => rfl, fun _ => rfl⟩
  cases v <;> rfl

/-- Claim C8: the two flags serialize to the single characters `T`/`F`, and
in every combination the include-winds line immediately precedes the
include-uncertainty line, after the flag-independent numeric lines. -/
theorem c8_flag_serialization :
    MCM.fortran_bool true = "T" ∧ MCM.fortran_bool false = "F" ∧
    ∀ {α : Type} (pyStr : α → String) (size : Nat)
      (a1 a2 a3 a4 a5 a6 a7 a8 a9 : List α) (w u : Bool) (d1 d2 : String),
      MCM.buildInput pyStr size a1 a2 a3 a4 a5 a6 a7 a8 a9 w u d1 d2 =
        renderLines (numericLines pyStr size a1 a2 a3 a4 a5 a6 a7 a8 a9) ++
          MCM.fortran_bool w ++ "\n" ++ MCM.fortran_bool u ++ "\n" ++
          d1 ++ "\n" ++ d2 ++ "\n" := by
  refine ⟨rfl, rfl, ?_⟩
  intro α pyStr size a1 a2 a3 a4 a5 a6 a7 a8 a9 w u d1 d2
  simp [MCM.buildInput, renderLines, numericLines, String.append_assoc,
    String.append_empty]

/-- Claim C9: tokens beyond the first `1 + 25*N` are silently discarded —
appending any surplus to a complete stream does not change the parsed
record, and the parse succeeds. -/
theorem c9_surplus_ignored (v0 : Rat) (core extra : List Rat) (N : Nat)
    (h0 : pyTrunc v0 = (N : Int)) (hN : 1 ≤ N)
    (hcore : core.length = 25 * N) :
    MCM.parseValues (v0 :: (core ++ extra)) = MCM.parseValues (v0 :: core) ∧
    ∃ o, MCM.parseValues (v0 :: core) = .ok o := by
  have h1 := parseValues_ok v0 core N h0 hN (le_of_eq hcore.symm)
  have h2 := parseValues_ok v0 (core ++ extra) N h0 hN
    (by rw [List.length_append]; omega)
  rw [outputOfChunks_append core extra N (le_of_eq hcore.symm)] at h2
  exact ⟨h2.trans h1.symm, ⟨_, h1⟩⟩

/-- Witness for C9: a surplus value after a complete `N = 1` stream. -/
theorem c9_surplus_ignored_witness :
    pyTrunc 1 = ((1 : Nat) : Int) ∧
    (List.replicate 25 (1 : Rat)).length = 25 * 1 ∧
    (MCM.parseValues (1 :: (List.replicate 25 1 ++ [5])) =
      MCM.parseValues (1 :: List.replicate 25 1) ∧
    ∃ o, MCM.parseValues (1 :: List.replicate 25 (1 : Rat)) = .ok o) :=
  ⟨by decide, by decide,
    c9_surplus_ignored 1 (List.replicate 25 1) [5] 1 (by decide) (by decide)
      (by decide)⟩

/-- Claim C10: nine empty inputs normalize to common length 0, pass the
length check without any `InvalidInput` error, and serialize to a request
whose first line is `0` followed by nine empty lines, the flags and the
paths. -/
theorem c10_empty_inputs {α : Type} [DecidableEq α] (pyStr : α → String)
    (gu gw : Bool) (d1 d2 : String) :
    MCM.run_model pyStr (.iterable []) (.iterable []) (.iterable [])
      (.iterable []) (.iterable []) (.iterable []) (.iterable [])
      (.iterable []) (.iterable []) gu gw d1 d2 =
      .ok (renderLines ["0", "", "", "", "", "", "", "", "", "",
        MCM.fortran_bool gw, MCM.fortran_bool gu, d1, d2]) := by
  simp only [MCM.run_model, MCM.to_list]
  rw [if_neg (by simp)]
  rw [buildInput_renderLines]
  simp only [List.length_nil]
  rfl
